import Mathlib

/-!
Verification of the directive parser and state reconciler of the
AI-Adventure interactive-fiction client (`src/App.tsx`).

The embedding follows the TypeScript source closely:
* `parseGeminiResponse` (App.tsx lines 10-72) is modelled line by line,
  including the semantics of the JavaScript regular expressions it uses
  and of `parseInt(·, 10)`.
* The reconciliation steps of `handlePlayerAction` (App.tsx lines 265-354)
  become pure functions on an explicit `WorldState`.
* `saveGame` / `handleLoadGame` (App.tsx lines 108-137 and 219-236) are
  modelled as functions to and from a `SavedGame` record.
-/

namespace Adventure

/-- Character class of the JavaScript whitespace that can occur inside one
line of a reply (a line never contains a newline after the split, but we
keep `\n` for `trim`). -/
def isWS (c : Char) : Bool :=
  c = ' ' || c = '\t' || c = '\r' || c = '\n'

/-- Model of JavaScript `String.prototype.trim` on a list of characters. -/
def trimChars (cs : List Char) : List Char :=
  ((cs.dropWhile isWS).reverse.dropWhile isWS).reverse

/-- Model of JavaScript `String.prototype.trim`. -/
def trimJS (s : String) : String :=
  String.mk (trimChars s.toList)

/-- Model of JavaScript `String.prototype.startsWith`. -/
def strStartsWith (s pre : String) : Bool :=
  pre.toList.isPrefixOf s.toList

/-- Model of JavaScript `String.prototype.split` with a one-character
separator: `"a,b".split(",") = ["a","b"]`, `"".split(",") = [""]`. -/
def splitOnChar (sep : Char) : List Char → List (List Char)
  | [] => [[]]
  | c :: rest =>
    let r := splitOnChar sep rest
    if c = sep then [] :: r
    else
      match r with
      | [] => [[c]]
      | h :: t => (c :: h) :: t

/-- The suffix of `cs` following the first occurrence of `pat`, when `pat`
occurs in `cs` (the position where a JS regex literal first matches). -/
def afterFirst (pat : List Char) : List Char → Option (List Char)
  | [] => if pat.isEmpty then some [] else none
  | c :: rest =>
    if pat.isPrefixOf (c :: rest) then some ((c :: rest).drop pat.length)
    else afterFirst pat rest

/-- Index of the last occurrence of `c` in `cs`, if any. -/
def lastIndexOf (c : Char) (cs : List Char) : Option Nat :=
  match cs.reverse.findIdx? (fun x => x = c) with
  | none => none
  | some i => some (cs.length - 1 - i)

/-- Capture group of the JS regex `\[TAG\s*(.+)\]` searched in `line`
(leftmost match): after the first occurrence of the literal `tag`, the
greedy `\s*` takes the whitespace run (backing off so `.+` keeps at least
one character), `.+` runs greedily and backtracks to the last `]`.
Returns `none` exactly when the regex does not match. -/
def tagCapture (tag line : String) : Option String :=
  match afterFirst tag.toList line.toList with
  | none => none
  | some rest =>
    match lastIndexOf ']' rest with
    | none => none
    | some L =>
      if L ≥ 1 then
        let w := (rest.takeWhile isWS).length
        some (String.mk ((rest.take L).drop (min w (L - 1))))
      else none

/-- Numeric value of a digit run. -/
def digitsToNat (ds : List Char) : Nat :=
  ds.foldl (fun acc c => acc * 10 + (c.toNat - '0'.toNat)) 0

/-- Model of JavaScript `parseInt(s, 10)`: skip leading whitespace, an
optional sign, then the longest leading digit run; `none` models `NaN`
(no digits, or the argument was `undefined`). Trailing garbage is
ignored, as in JS. -/
def parseIntJS : Option String → Option Int
  | none => none
  | some s =>
    let cs := s.toList.dropWhile isWS
    match cs with
    | '+' :: r =>
      let ds := r.takeWhile Char.isDigit
      if ds.isEmpty then none else some (digitsToNat ds : Int)
    | '-' :: r =>
      let ds := r.takeWhile Char.isDigit
      if ds.isEmpty then none else some (-(digitsToNat ds : Int))
    | _ =>
      let ds := cs.takeWhile Char.isDigit
      if ds.isEmpty then none else some (digitsToNat ds : Int)

/-- The record `statUpdates` of the source is a JS object: assignment to an
existing key overwrites it in place, a new key is appended. -/
def insertStat (m : List (String × Int)) (k : String) (v : Int) :
    List (String × Int) :=
  if m.any (fun p => p.1 = k) then
    m.map (fun p => if p.1 = k then (k, v) else p)
  else m ++ [(k, v)]

/-- Key lookup in the `statUpdates` record (`statUpdates[k]`,
`none` models `undefined`). -/
def lookupStat (m : List (String × Int)) (k : String) : Option Int :=
  match m with
  | [] => none
  | (k', v) :: rest => if k' = k then some v else lookupStat rest k

/-- One entry of a `STAT_UPDATE` directive, from the source:
`const [stat, value] = update.split('=').map(s => s.trim());
const numValue = parseInt(value, 10);
if (stat && !isNaN(numValue)) statUpdates[stat] = numValue;`. -/
def applyStatEntry (m : List (String × Int)) (update : List Char) :
    List (String × Int) :=
  let parts := (splitOnChar '=' update).map trimChars
  let stat := parts.headD []
  let value : Option String := (parts[1]?).map String.mk
  match parseIntJS value with
  | none => m
  | some v => if stat.isEmpty then m else insertStat m (String.mk stat) v

/-- All entries of one `STAT_UPDATE` directive: the capture is split on
commas and each entry folded into the record. -/
def parseStatLine (m : List (String × Int)) (capture : String) :
    List (String × Int) :=
  (splitOnChar ',' capture.toList).foldl applyStatEntry m

/-- Tail of the JS regex `,\s*health=(\d+)\s*\]` tried at a candidate
position: a comma, whitespace, the literal `health=`, a greedy digit run,
whitespace, then `]`. Returns the captured health value. -/
def combatTail (rest : List Char) : Option Nat :=
  match rest with
  | ',' :: r1 =>
    let r2 := r1.dropWhile isWS
    if ("health=".toList).isPrefixOf r2 then
      let r3 := r2.drop 7
      let ds := r3.takeWhile Char.isDigit
      if ds.isEmpty then none
      else
        let r4 := (r3.drop ds.length).dropWhile isWS
        match r4 with
        | ']' :: _ => some (digitsToNat ds)
        | _ => none
    else none
  | _ => none

/-- Lazy `(.+?)` of the combat-start regex: the shortest non-empty prefix
after `name=` whose remainder matches `combatTail`. -/
def lazyName (acc : List Char) : List Char → Option (List Char × Nat)
  | [] => none
  | c :: rest =>
    match combatTail rest with
    | some h => some (acc ++ [c], h)
    | none => lazyName (acc ++ [c]) rest

/-- Leftmost match of the JS regex
`\[COMBAT_START:\s*name=(.+?),\s*health=(\d+)\s*\]`: scan the line for
occurrences of the literal head; at each, skip whitespace, require
`name=`, and find the lazy name split. -/
def combatStartMatch : List Char → Option (List Char × Nat)
  | [] => none
  | c :: rest =>
    let cs := c :: rest
    if ("[COMBAT_START:".toList).isPrefixOf cs then
      let r1 := (cs.drop 14).dropWhile isWS
      if ("name=".toList).isPrefixOf r1 then
        match lazyName [] (r1.drop 5) with
        | some (n, h) => some (n, h)
        | none => combatStartMatch rest
      else combatStartMatch rest
    else combatStartMatch rest

/-- The `combatStart` value produced by the parser. -/
structure CombatStartInfo where
  name : String
  health : Int
deriving DecidableEq

/-- Accumulator of the parsing loop of `parseGeminiResponse`. -/
structure ParseAcc where
  narrativeLines : List String
  itemsToAdd : List String
  itemsToRemove : List String
  imagePrompt : Option String
  statUpdates : List (String × Int)
  combatStart : Option CombatStartInfo
  combatEnd : Bool
deriving DecidableEq

/-- Result record of `parseGeminiResponse`. -/
structure ParseResult where
  narrative : String
  itemsToAdd : List String
  itemsToRemove : List String
  imagePrompt : Option String
  statUpdates : List (String × Int)
  combatStart : Option CombatStartInfo
  combatEnd : Bool
deriving DecidableEq

/-- One iteration of the `for (const line of lines)` loop of
`parseGeminiResponse` (App.tsx lines 29-61). -/
def parseLine (acc : ParseAcc) (line : String) : ParseAcc :=
  let t := trimJS line
  if strStartsWith t "[INVENTORY_ADD:" then
    match tagCapture "[INVENTORY_ADD:" line with
    | some cap => { acc with itemsToAdd := acc.itemsToAdd ++ [trimJS cap] }
    | none => acc
  else if strStartsWith t "[INVENTORY_REMOVE:" then
    match tagCapture "[INVENTORY_REMOVE:" line with
    | some cap => { acc with itemsToRemove := acc.itemsToRemove ++ [trimJS cap] }
    | none => acc
  else if strStartsWith t "[IMAGE_PROMPT:" then
    match tagCapture "[IMAGE_PROMPT:" line with
    | some cap => { acc with imagePrompt := some (trimJS cap) }
    | none => acc
  else if strStartsWith t "[STAT_UPDATE:" then
    match tagCapture "[STAT_UPDATE:" line with
    | some cap => { acc with statUpdates := parseStatLine acc.statUpdates cap }
    | none => acc
  else if strStartsWith t "[COMBAT_START:" then
    match combatStartMatch line.toList with
    | some (n, h) =>
      { acc with combatStart := some ⟨trimJS (String.mk n), (h : Int)⟩ }
    | none => acc
  else if t = "[COMBAT_END]" then
    { acc with combatEnd := true }
  else
    { acc with narrativeLines := acc.narrativeLines ++ [line] }

/-- Model of `parseGeminiResponse` (App.tsx lines 10-72). -/
def parseGeminiResponse (responseText : String) : ParseResult :=
  let lines := (splitOnChar '\n' responseText.toList).map String.mk
  let acc := lines.foldl parseLine
    { narrativeLines := [], itemsToAdd := [], itemsToRemove := [],
      imagePrompt := none, statUpdates := [], combatStart := none,
      combatEnd := false }
  { narrative := trimJS (String.intercalate "\n" acc.narrativeLines),
    itemsToAdd := acc.itemsToAdd,
    itemsToRemove := acc.itemsToRemove,
    imagePrompt := acc.imagePrompt,
    statUpdates := acc.statUpdates,
    combatStart := acc.combatStart,
    combatEnd := acc.combatEnd }

/-- A `(current, max)` pair (`Stat` in `types.ts`). -/
structure Stat where
  current : Int
  max : Int
deriving DecidableEq

/-- `PlayerStats` of `types.ts`. -/
structure PlayerStats where
  health : Stat
  mana : Stat
  stamina : Stat
deriving DecidableEq

/-- `Enemy` of `types.ts`. -/
structure Enemy where
  name : String
  health : Stat
deriving DecidableEq

/-- The `type` discriminator of a `StorySegment`. -/
inductive SegmentType where
  | narrative
  | action
  | system
deriving DecidableEq

/-- `StorySegment` of `types.ts`; the optional image fields become an
`Option String` and a `Bool` (absent ≈ `false` wherever the source reads
the flag). -/
structure StorySegment where
  id : Nat
  type : SegmentType
  text : String
  imageUrl : Option String
  isImageLoading : Bool
deriving DecidableEq

/-- The components of the App state that the reconciler reads and writes. -/
structure WorldState where
  storyHistory : List StorySegment
  inventory : List String
  playerStats : PlayerStats
  isInCombat : Bool
  currentEnemy : Option Enemy
deriving DecidableEq

/-- The fresh stats installed by `handleStartGame` and `handleRestart`. -/
def initialPlayerStats : PlayerStats :=
  { health := { current := 100, max := 100 },
    mana := { current := 50, max := 50 },
    stamina := { current := 80, max := 80 } }

/-- The state after `handleRestart`: everything reset. -/
def initialWorldState : WorldState :=
  { storyHistory := [], inventory := [], playerStats := initialPlayerStats,
    isInCombat := false, currentEnemy := none }

/-- Step 1 of the reconciliation (App.tsx lines 271-282): combat
transitions, start applied before end. -/
def applyCombat (cs : Option CombatStartInfo) (ce : Bool)
    (s : WorldState) : WorldState :=
  let s1 :=
    match cs with
    | some c =>
      { s with isInCombat := true,
               currentEnemy :=
                 some { name := c.name,
                        health := { current := c.health, max := c.health } } }
    | none => s
  if ce then { s1 with isInCombat := false, currentEnemy := none } else s1

/-- The clamped delta of a player stat (App.tsx line 292):
`stat.current = Math.max(0, Math.min(stat.max, stat.current + change))`. -/
def clampedAdd (st : Stat) (change : Int) : Stat :=
  { st with current := max 0 (min st.max (st.current + change)) }

/-- One turn of the `for (const statKey in statUpdates)` loop: only the
own keys of `PlayerStats` (`health`, `mana`, `stamina`) are touched. -/
def applyOneStat (acc : PlayerStats) (kv : String × Int) : PlayerStats :=
  if kv.1 = "health" then { acc with health := clampedAdd acc.health kv.2 }
  else if kv.1 = "mana" then { acc with mana := clampedAdd acc.mana kv.2 }
  else if kv.1 = "stamina" then { acc with stamina := clampedAdd acc.stamina kv.2 }
  else acc

/-- The player part of step 2 (App.tsx lines 286-296). -/
def applyPlayerStatUpdates (updates : List (String × Int))
    (ps : PlayerStats) : PlayerStats :=
  updates.foldl applyOneStat ps

/-- The enemy part of step 2 (App.tsx lines 297-303): when the record has
an `enemyHealth` key, the current enemy (if any) gets
`Math.max(0, prevEnemy.health.current + delta)`; note the source has no
upper clamp to `max` here. -/
def applyEnemyHealth (updates : List (String × Int))
    (e : Option Enemy) : Option Enemy :=
  match lookupStat updates "enemyHealth" with
  | none => e
  | some d =>
    match e with
    | none => none
    | some en =>
      some { en with health :=
        { en.health with current := max 0 (en.health.current + d) } }

/-- Step 2 of the reconciliation, guarded by
`if (Object.keys(statUpdates).length > 0)`. -/
def applyStats (updates : List (String × Int)) (s : WorldState) : WorldState :=
  if updates.isEmpty then s
  else { s with playerStats := applyPlayerStatUpdates updates s.playerStats,
                currentEnemy := applyEnemyHealth updates s.currentEnemy }

/-- Keep-first de-duplication of `[...new Set(list)]`, with a seen
accumulator. -/
def dedupAux (seen : List String) : List String → List String
  | [] => []
  | x :: xs =>
    if x ∈ seen then dedupAux seen xs
    else x :: dedupAux (x :: seen) xs

/-- Model of `[...new Set(list)]`: JS `Set` keeps the first occurrence. -/
def dedupFirst (l : List String) : List String :=
  dedupAux [] l

/-- Step 3 of the reconciliation (App.tsx lines 306-312): filter the
removals out of the prior inventory, append the additions, de-duplicate;
guarded by `itemsToAdd.length > 0 || itemsToRemove.length > 0`. -/
def applyInventory (itemsToAdd itemsToRemove inv : List String) :
    List String :=
  if itemsToAdd.isEmpty && itemsToRemove.isEmpty then inv
  else dedupFirst ((inv.filter (fun item => !(itemsToRemove.contains item)))
    ++ itemsToAdd)

/-- Steps 1-3 of the reconciliation applied to a world state. -/
def applyDirectives (r : ParseResult) (s : WorldState) : WorldState :=
  let s1 := applyCombat r.combatStart r.combatEnd s
  let s2 := applyStats r.statUpdates s1
  { s2 with inventory := applyInventory r.itemsToAdd r.itemsToRemove s2.inventory }

/-- Number of occurrences of an item in an inventory list. -/
def countOcc (x : String) : List String → Nat
  | [] => 0
  | y :: t => (if y = x then 1 else 0) + countOcc x t

/-- Model of `handlePlayerAction` (App.tsx lines 248-355): the action
segment is appended, then the generator reply either arrives
(`Except.ok`, reconciliation steps 1-4 run) or the call throws
(`Except.error`, only a system error segment is appended). -/
def handlePlayerAction (s : WorldState) (action : String)
    (response : Except String String) : WorldState :=
  let withAction : WorldState :=
    { s with storyHistory := s.storyHistory ++
        [{ id := s.storyHistory.length, type := SegmentType.action,
           text := action, imageUrl := none, isImageLoading := false }] }
  match response with
  | Except.ok raw =>
    let r := parseGeminiResponse raw
    let s3 := applyDirectives r withAction
    { s3 with storyHistory := s3.storyHistory ++
        [{ id := s.storyHistory.length + 1, type := SegmentType.narrative,
           text := r.narrative, imageUrl := none,
           isImageLoading := r.imagePrompt.isSome }] }
  | Except.error msg =>
    { withAction with storyHistory := withAction.storyHistory ++
        [{ id := s.storyHistory.length + 1, type := SegmentType.system,
           text := "A mysterious force prevents you from proceeding... ("
             ++ msg ++ ")", imageUrl := none, isImageLoading := false }] }

/-- Model of `handleStartGame` (App.tsx lines 145-205): state reset, the
opening reply parsed, one narrative segment installed. -/
def handleStartGame (opening : String) : WorldState :=
  let r := parseGeminiResponse opening
  { storyHistory := [{ id := 0, type := SegmentType.narrative,
                       text := r.narrative, imageUrl := none,
                       isImageLoading := r.imagePrompt.isSome }],
    inventory := [], playerStats := initialPlayerStats,
    isInCombat := false, currentEnemy := none }

/-- The persisted snapshot (`SavedGame` of `types.ts`); the opaque chat
transcript is carried along unchanged. -/
structure SavedGame where
  storyHistory : List StorySegment
  chatHistory : List String
  inventory : List String
  playerStats : PlayerStats
  isInCombat : Bool
  currentEnemy : Option Enemy
deriving DecidableEq

/-- The `({ imageUrl, isImageLoading, ...rest }) => rest` projection of
`saveGame` (App.tsx line 112). -/
def stripImageFields (seg : StorySegment) : StorySegment :=
  { seg with imageUrl := none, isImageLoading := false }

/-- Model of the auto-save `saveGame` (App.tsx lines 108-137): segments
lose their image fields, the other components are stored as they are. -/
def saveGame (s : WorldState) (chatHistory : List String) : SavedGame :=
  { storyHistory := s.storyHistory.map stripImageFields,
    chatHistory := chatHistory,
    inventory := s.inventory,
    playerStats := s.playerStats,
    isInCombat := s.isInCombat,
    currentEnemy := s.currentEnemy }

/-- Model of `handleLoadGame` (App.tsx lines 219-236) on a snapshot
written by `saveGame` (on such a snapshot every field is present, so the
JS `|| default` fallbacks are the identity). -/
def handleLoadGame (sg : SavedGame) : WorldState :=
  { storyHistory := sg.storyHistory.map
      (fun seg => { seg with isImageLoading := false }),
    inventory := sg.inventory,
    playerStats := sg.playerStats,
    isInCombat := sg.isInCombat,
    currentEnemy := sg.currentEnemy }

/-- The invariant of claim C4: a stat current value stays inside
`[0, max]`. -/
abbrev statOK (st : Stat) : Prop :=
  0 ≤ st.current ∧ st.current ≤ st.max

/-- All three player stats are in range. -/
abbrev playerStatsOK (ps : PlayerStats) : Prop :=
  statOK ps.health ∧ statOK ps.mana ∧ statOK ps.stamina

/-- The invariant of claim C10: the combat flag is set exactly when an
enemy snapshot is present. -/
abbrev combatOK (s : WorldState) : Prop :=
  s.isInCombat = s.currentEnemy.isSome

/-- World states reachable from the fresh start state through the
operations of the app: starting an adventure, a player action (with the
generator reply arriving or throwing), loading the app's own save, and
restarting. -/
inductive Reachable : WorldState → Prop where
  | start (opening : String) : Reachable (handleStartGame opening)
  | restart : Reachable initialWorldState
  | action (s : WorldState) (a raw : String) : Reachable s →
      Reachable (handlePlayerAction s a (Except.ok raw))
  | actionFailed (s : WorldState) (a msg : String) : Reachable s →
      Reachable (handlePlayerAction s a (Except.error msg))
  | loadOwnSave (s : WorldState) (chat : List String) : Reachable s →
      Reachable (handleLoadGame (saveGame s chat))

/-! Helper lemmas about the reconciliation steps. -/

/-- An empty update record changes no enemy. -/
lemma applyEnemyHealth_nil (e : Option Enemy) : applyEnemyHealth [] e = e := rfl

/-- With no enemy present the `enemyHealth` delta is discarded. -/
lemma applyEnemyHealth_none (u : List (String × Int)) :
    applyEnemyHealth u none = none := by
  unfold applyEnemyHealth
  cases lookupStat u "enemyHealth" <;> rfl

/-- The enemy part of step 2 never creates or removes an enemy. -/
lemma applyEnemyHealth_isSome (u : List (String × Int)) (e : Option Enemy) :
    (applyEnemyHealth u e).isSome = e.isSome := by
  unfold applyEnemyHealth
  cases lookupStat u "enemyHealth" <;> cases e <;> rfl

/-- Step 2 leaves the combat flag alone. -/
lemma applyStats_isInCombat (u : List (String × Int)) (s : WorldState) :
    (applyStats u s).isInCombat = s.isInCombat := by
  unfold applyStats
  split <;> rfl

/-- The enemy after step 2, with the empty-record guard folded away. -/
lemma applyStats_currentEnemy (u : List (String × Int)) (s : WorldState) :
    (applyStats u s).currentEnemy = applyEnemyHealth u s.currentEnemy := by
  unfold applyStats
  split
  · next h =>
    cases u with
    | nil => rfl
    | cons a t => simp [List.isEmpty] at h
  · rfl

/-- The player stats after step 2, with the empty-record guard folded
away. -/
lemma applyStats_playerStats (u : List (String × Int)) (s : WorldState) :
    (applyStats u s).playerStats = applyPlayerStatUpdates u s.playerStats := by
  unfold applyStats
  split
  · next h =>
    cases u with
    | nil => rfl
    | cons a t => simp [List.isEmpty] at h
  · rfl

/-- Step 1 does not touch the player stats. -/
lemma applyCombat_playerStats (cs : Option CombatStartInfo) (ce : Bool)
    (s : WorldState) : (applyCombat cs ce s).playerStats = s.playerStats := by
  unfold applyCombat
  cases cs <;> cases ce <;> rfl

/-- A clamped delta keeps a stat inside its range. -/
lemma clampedAdd_ok (st : Stat) (d : Int) (h : statOK st) :
    statOK (clampedAdd st d) :=
  ⟨le_max_left 0 _, max_le (le_trans h.1 h.2) (min_le_left _ _)⟩

/-- One loop turn of step 2 keeps all three player stats in range. -/
lemma applyOneStat_ok (ps : PlayerStats) (kv : String × Int)
    (h : playerStatsOK ps) : playerStatsOK (applyOneStat ps kv) := by
  unfold applyOneStat
  split
  · exact ⟨clampedAdd_ok _ _ h.1, h.2.1, h.2.2⟩
  · split
    · exact ⟨h.1, clampedAdd_ok _ _ h.2.1, h.2.2⟩
    · split
      · exact ⟨h.1, h.2.1, clampedAdd_ok _ _ h.2.2⟩
      · exact h

/-- The whole player part of step 2 keeps all stats in range. -/
lemma applyPlayerStatUpdates_ok (u : List (String × Int)) :
    ∀ ps : PlayerStats, playerStatsOK ps →
      playerStatsOK (applyPlayerStatUpdates u ps) := by
  induction u with
  | nil => exact fun ps h => h
  | cons kv t ih => exact fun ps h => ih _ (applyOneStat_ok ps kv h)

/-- Inserting a key into the stat record makes it the looked-up value; the
two sub-lemmas follow the two branches of `insertStat`. -/
lemma lookupStat_map_overwrite (k : String) (v : Int) :
    ∀ l : List (String × Int), (∃ q ∈ l, q.1 = k) →
      lookupStat (l.map (fun p => if p.1 = k then (k, v) else p)) k = some v := by
  intro l
  induction l with
  | nil =>
    rintro ⟨q, hq, _⟩
    exact absurd hq (List.not_mem_nil q)
  | cons p t ih =>
    rintro ⟨q, hq, hqk⟩
    rw [List.map_cons]
    by_cases hp : p.1 = k
    · rw [if_pos hp]
      simp [lookupStat]
    · rw [if_neg hp]
      have ht : ∃ q ∈ t, q.1 = k := by
        rcases List.mem_cons.mp hq with h1 | h1
        · exact absurd (h1 ▸ hqk) hp
        · exact ⟨q, h1, hqk⟩
      obtain ⟨pk, pv⟩ := p
      have hp' : ¬ pk = k := hp
      simp only [lookupStat]
      rw [if_neg hp']
      exact ih ht

/-- Appending a fresh key to the stat record makes it the looked-up
value. -/
lemma lookupStat_append_absent (k : String) (v : Int) :
    ∀ l : List (String × Int), (∀ q ∈ l, ¬ q.1 = k) →
      lookupStat (l ++ [(k, v)]) k = some v := by
  intro l
  induction l with
  | nil => intro _; simp [lookupStat]
  | cons p t ih =>
    intro h
    obtain ⟨pk, pv⟩ := p
    have hp : ¬ pk = k := h (pk, pv) (List.mem_cons_self _ _)
    rw [List.cons_append]
    simp only [lookupStat]
    rw [if_neg hp]
    exact ih (fun q hq => h q (List.mem_cons_of_mem _ hq))

/-- JS record assignment: after `statUpdates[k] = v`, reading `k` yields
`v`. -/
lemma lookupStat_insertStat (m : List (String × Int)) (k : String) (v : Int) :
    lookupStat (insertStat m k v) k = some v := by
  unfold insertStat
  split
  · next h =>
    refine lookupStat_map_overwrite k v m ?_
    rcases List.any_eq_true.mp h with ⟨q, hq, hqk⟩
    exact ⟨q, hq, of_decide_eq_true hqk⟩
  · next h =>
    refine lookupStat_append_absent k v m ?_
    intro q hq hqk
    exact h (List.any_eq_true.mpr ⟨q, hq, decide_eq_true hqk⟩)

/-- Keys other than `health`, `mana`, `stamina` are skipped by the player
part of step 2; in particular the `enemyHealth` entry never touches the
player stats. -/
lemma applyPlayerStatUpdates_filter_enemyHealth :
    ∀ (u : List (String × Int)) (ps : PlayerStats),
      applyPlayerStatUpdates (u.filter (fun kv => kv.1 ≠ "enemyHealth")) ps =
        applyPlayerStatUpdates u ps := by
  intro u
  induction u with
  | nil => intro ps; rfl
  | cons kv t ih =>
    intro ps
    by_cases hk : kv.1 = "enemyHealth"
    · have hstep : applyOneStat ps kv = ps := by
        unfold applyOneStat
        rw [hk]
        rw [if_neg (by decide), if_neg (by decide), if_neg (by decide)]
      have hfilter : (kv :: t).filter (fun kv => kv.1 ≠ "enemyHealth") =
          t.filter (fun kv => kv.1 ≠ "enemyHealth") := by
        simp [List.filter_cons, hk]
      rw [hfilter, ih ps]
      show applyPlayerStatUpdates t ps =
        applyPlayerStatUpdates t (applyOneStat ps kv)
      rw [hstep]
    · have hfilter : (kv :: t).filter (fun kv => kv.1 ≠ "enemyHealth") =
          kv :: t.filter (fun kv => kv.1 ≠ "enemyHealth") := by
        simp [List.filter_cons, hk]
      rw [hfilter]
      show applyPlayerStatUpdates (t.filter (fun kv => kv.1 ≠ "enemyHealth"))
        (applyOneStat ps kv) = applyPlayerStatUpdates t (applyOneStat ps kv)
      exact ih (applyOneStat ps kv)

/-- Occurrence count after keep-first de-duplication, with the seen
accumulator tracked. -/
lemma countOcc_dedupAux (x : String) (l : List String) :
    ∀ seen : List String, countOcc x (dedupAux seen l) =
      if x ∈ seen then 0 else if x ∈ l then 1 else 0 := by
  induction l with
  | nil =>
    intro seen
    by_cases hx : x ∈ seen <;> simp [dedupAux, countOcc, hx]
  | cons y t ih =>
    intro seen
    by_cases hy : y ∈ seen
    · rw [dedupAux, if_pos hy, ih seen]
      by_cases hxs : x ∈ seen
      · simp [hxs]
      · have hxy : ¬ (x = y) := fun h => hxs (h ▸ hy)
        simp [hxs, List.mem_cons, hxy]
    · rw [dedupAux, if_neg hy, countOcc, ih (y :: seen)]
      by_cases hxy : x = y
      · subst hxy
        simp [hy, List.mem_cons]
      · have hyx : ¬ (y = x) := fun h => hxy h.symm
        by_cases hxs : x ∈ seen <;>
          simp [hyx, hxy, hxs, List.mem_cons]

/-- Occurrence count in `[...new Set(list)]`: one per member. -/
lemma countOcc_dedupFirst (x : String) (l : List String) :
    countOcc x (dedupFirst l) = if x ∈ l then 1 else 0 := by
  rw [dedupFirst, countOcc_dedupAux x l []]
  simp

/-- Steps 1-3 preserve the combat-flag/enemy equivalence. -/
lemma combatOK_applyDirectives (r : ParseResult) (s : WorldState)
    (h : combatOK s) : combatOK (applyDirectives r s) := by
  show (applyStats r.statUpdates (applyCombat r.combatStart r.combatEnd s)).isInCombat
    = (applyStats r.statUpdates (applyCombat r.combatStart r.combatEnd s)).currentEnemy.isSome
  rw [applyStats_isInCombat, applyStats_currentEnemy, applyEnemyHealth_isSome]
  unfold applyCombat
  cases r.combatStart <;> cases r.combatEnd <;> simp_all

/-! The claims. -/

/-- C1, counterexample to the claimed upper clamp: with an enemy at
health `(current 30, max 30)` and a batch carrying `enemyHealth = +10`,
the source (App.tsx line 300, `Math.max(0, current + delta)` with no
`Math.min` against `max`) leaves the enemy at `40 > 30`, so the result is
not clamped to `[0, max]`. -/
theorem enemyHealth_clamp_counterexample :
    (applyDirectives
        { narrative := "", itemsToAdd := [], itemsToRemove := [],
          imagePrompt := none, statUpdates := [("enemyHealth", 10)],
          combatStart := none, combatEnd := false }
        { storyHistory := [], inventory := [],
          playerStats := initialPlayerStats, isInCombat := true,
          currentEnemy := some ⟨"Wolf", ⟨30, 30⟩⟩ }).currentEnemy =
      some ⟨"Wolf", ⟨40, 30⟩⟩ ∧ ¬ ((40 : Int) ≤ (30 : Int)) := by
  exact ⟨by decide, by decide⟩

/-- C1 (amended): when the batch carries an `enemyHealth` delta, the delta
is applied to the current enemy's health clamped below at `0` only (the
source has no upper clamp to `max`), if and only if an enemy exists after
the combat-transition step; with no enemy at that point the delta is
discarded without error, and the entry never touches the player stats. -/
theorem enemyHealth_amended (r : ParseResult) (s : WorldState) (d : Int)
    (hd : lookupStat r.statUpdates "enemyHealth" = some d) :
    ((applyCombat r.combatStart r.combatEnd s).currentEnemy = none →
        (applyDirectives r s).currentEnemy = none) ∧
    (∀ e : Enemy,
        (applyCombat r.combatStart r.combatEnd s).currentEnemy = some e →
        (applyDirectives r s).currentEnemy =
          some { e with health :=
            { e.health with current := max 0 (e.health.current + d) } }) ∧
    (applyDirectives r s).playerStats =
      applyPlayerStatUpdates
        (r.statUpdates.filter (fun kv => kv.1 ≠ "enemyHealth"))
        s.playerStats := by
  have hcur : (applyDirectives r s).currentEnemy =
      applyEnemyHealth r.statUpdates
        (applyCombat r.combatStart r.combatEnd s).currentEnemy :=
    applyStats_currentEnemy r.statUpdates (applyCombat r.combatStart r.combatEnd s)
  refine ⟨?_, ?_, ?_⟩
  · intro h
    rw [hcur, h, applyEnemyHealth_none]
  · intro e he
    rw [hcur, he]
    unfold applyEnemyHealth
    rw [hd]
  · have hps : (applyDirectives r s).playerStats =
        applyPlayerStatUpdates r.statUpdates
          (applyCombat r.combatStart r.combatEnd s).playerStats :=
      applyStats_playerStats r.statUpdates (applyCombat r.combatStart r.combatEnd s)
    rw [hps, applyCombat_playerStats, applyPlayerStatUpdates_filter_enemyHealth]

/-- Witness for C1 (amended): the concrete batch `enemyHealth = +10`
against an enemy at `(30, 30)` yields `max 0 (30 + 10)`. -/
theorem enemyHealth_amended_witness :
    lookupStat [(("enemyHealth" : String), (10 : Int))] "enemyHealth" = some 10 ∧
    (applyDirectives
        { narrative := "", itemsToAdd := [], itemsToRemove := [],
          imagePrompt := none, statUpdates := [("enemyHealth", 10)],
          combatStart := none, combatEnd := false }
        { storyHistory := [], inventory := [],
          playerStats := initialPlayerStats, isInCombat := true,
          currentEnemy := some ⟨"Hound", ⟨30, 30⟩⟩ }).currentEnemy =
      some ⟨"Hound", ⟨max 0 ((30 : Int) + 10), 30⟩⟩ :=
  ⟨by decide,
    (enemyHealth_amended
      { narrative := "", itemsToAdd := [], itemsToRemove := [],
        imagePrompt := none, statUpdates := [("enemyHealth", 10)],
        combatStart := none, combatEnd := false }
      { storyHistory := [], inventory := [],
        playerStats := initialPlayerStats, isInCombat := true,
        currentEnemy := some ⟨"Hound", ⟨30, 30⟩⟩ }
      10 (by decide)).2.1 ⟨"Hound", ⟨30, 30⟩⟩ (by decide)⟩

/-- C2, counterexample: a batch carrying both `InventoryAdd torch` and
`InventoryRemove torch` leaves `torch` present, because the source removes
first and then appends the additions, so the claim that the item ends
absent is false. -/
theorem add_remove_same_item_counterexample :
    (applyDirectives
        { narrative := "", itemsToAdd := ["torch"], itemsToRemove := ["torch"],
          imagePrompt := none, statUpdates := [], combatStart := none,
          combatEnd := false } initialWorldState).inventory = ["torch"] ∧
    "torch" ∈ (applyDirectives
        { narrative := "", itemsToAdd := ["torch"], itemsToRemove := ["torch"],
          imagePrompt := none, statUpdates := [], combatStart := none,
          combatEnd := false } initialWorldState).inventory := by
  exact ⟨by decide, by decide⟩

/-- C2 (amended): for every inventory and every batch containing both
`InventoryAdd X` and `InventoryRemove X` for the same item name `X`,
applying the batch leaves `X` present exactly once (removals are applied
to the prior inventory first, then additions, then de-duplication, so the
add wins). -/
theorem add_remove_same_item_amended (inv adds rems : List String)
    (x : String) (ha : x ∈ adds) (hr : x ∈ rems) :
    countOcc x (applyInventory adds rems inv) = 1 := by
  unfold applyInventory
  have hne : (adds.isEmpty && rems.isEmpty) = false := by
    cases adds with
    | nil => exact absurd ha (List.not_mem_nil x)
    | cons a t => rfl
  rw [if_neg (by simp [hne])]
  rw [countOcc_dedupFirst]
  rw [if_pos (List.mem_append.mpr (Or.inr ha))]

/-- Witness for C2 (amended): add and remove of `rope` in one batch over
the inventory `["rope", "lamp"]` leaves exactly one `rope`. -/
theorem add_remove_same_item_amended_witness :
    ("rope" ∈ (["rope"] : List String)) ∧
    countOcc "rope" (applyInventory ["rope"] ["rope"] ["rope", "lamp"]) = 1 :=
  ⟨by decide,
    add_remove_same_item_amended ["rope", "lamp"] ["rope"] ["rope"] "rope"
      (by decide) (by decide)⟩

/-- C3: the inventory step removes, then adds, then de-duplicates; any
item named in an `InventoryAdd` directive of the batch ends present
exactly once (covering remove-then-add of the same item and a double
add), and the resulting inventory carries no duplicates at all. -/
theorem inventory_remove_then_add (inv adds rems : List String)
    (x : String) (ha : x ∈ adds) :
    countOcc x (applyInventory adds rems inv) = 1 ∧
    ∀ y : String, countOcc y (applyInventory adds rems inv) ≤ 1 := by
  unfold applyInventory
  have hne : (adds.isEmpty && rems.isEmpty) = false := by
    cases adds with
    | nil => exact absurd ha (List.not_mem_nil x)
    | cons a t => rfl
  rw [if_neg (by simp [hne])]
  constructor
  · rw [countOcc_dedupFirst]
    rw [if_pos (List.mem_append.mpr (Or.inr ha))]
  · intro y
    rw [countOcc_dedupFirst]
    split <;> simp

/-- Witness for C3: remove-then-add of `torch` and a double add of `map`
each end present exactly once. -/
theorem inventory_remove_then_add_witness :
    ("map" ∈ (["map", "map"] : List String)) ∧
    countOcc "map" (applyInventory ["map", "map"] ["torch"] ["torch"]) = 1 :=
  ⟨by decide,
    (inventory_remove_then_add ["torch"] ["map", "map"] ["torch"] "map"
      (by decide)).1⟩

/-- C4: whenever all three player stats satisfy `0 ≤ current ≤ max`, they
still do after any `STAT_UPDATE` batch with arbitrary signed deltas; and
the scenario `health = -150` against health `(100, 100)` ends at exactly
`0`. -/
theorem stat_update_clamped (s : WorldState) (updates : List (String × Int))
    (h : playerStatsOK s.playerStats) :
    playerStatsOK ((applyStats updates s).playerStats) ∧
    (applyStats (parseGeminiResponse "[STAT_UPDATE: health=-150]").statUpdates
        initialWorldState).playerStats.health.current = 0 := by
  constructor
  · rw [applyStats_playerStats]
    exact applyPlayerStatUpdates_ok updates s.playerStats h
  · decide

/-- Witness for C4: the fresh stats are in range and stay in range under
the batch `health = -150`. -/
theorem stat_update_clamped_witness :
    playerStatsOK initialWorldState.playerStats ∧
    playerStatsOK ((applyStats [(("health" : String), (-150 : Int))]
      initialWorldState).playerStats) :=
  ⟨by decide,
    (stat_update_clamped initialWorldState [("health", -150)] (by decide)).1⟩

/-- C5: a batch carrying both a combat-start directive and the combat-end
flag ends with combat inactive and no enemy: the source applies
`combatStart` first (App.tsx lines 272-278) and `combatEnd` second
(lines 279-282), so the end overrides the start. -/
theorem combat_start_end_same_batch (r : ParseResult) (s : WorldState)
    (c : CombatStartInfo) (hs : r.combatStart = some c)
    (he : r.combatEnd = true) :
    (applyDirectives r s).isInCombat = false ∧
    (applyDirectives r s).currentEnemy = none := by
  have h1 : (applyCombat r.combatStart r.combatEnd s).isInCombat = false ∧
      (applyCombat r.combatStart r.combatEnd s).currentEnemy = none := by
    unfold applyCombat
    rw [hs, he]
    exact ⟨rfl, rfl⟩
  constructor
  · rw [show (applyDirectives r s).isInCombat =
        (applyStats r.statUpdates
          (applyCombat r.combatStart r.combatEnd s)).isInCombat from rfl]
    rw [applyStats_isInCombat]
    exact h1.1
  · rw [show (applyDirectives r s).currentEnemy =
        (applyStats r.statUpdates
          (applyCombat r.combatStart r.combatEnd s)).currentEnemy from rfl]
    rw [applyStats_currentEnemy, h1.2, applyEnemyHealth_none]

/-- Witness for C5: the batch `CombatStart Wolf 30` plus `CombatEnd` from
the fresh state ends with combat inactive and no enemy. -/
theorem combat_start_end_same_batch_witness :
    (applyDirectives
        { narrative := "", itemsToAdd := [], itemsToRemove := [],
          imagePrompt := none, statUpdates := [],
          combatStart := some ⟨"Wolf", 30⟩, combatEnd := true }
        initialWorldState).isInCombat = false ∧
    (applyDirectives
        { narrative := "", itemsToAdd := [], itemsToRemove := [],
          imagePrompt := none, statUpdates := [],
          combatStart := some ⟨"Wolf", 30⟩, combatEnd := true }
        initialWorldState).currentEnemy = none :=
  combat_start_end_same_batch
    { narrative := "", itemsToAdd := [], itemsToRemove := [],
      imagePrompt := none, statUpdates := [],
      combatStart := some ⟨"Wolf", 30⟩, combatEnd := true }
    initialWorldState ⟨"Wolf", 30⟩ rfl rfl

/-- C6: the parser collapses `STAT_UPDATE` entries of a whole reply into
one record where a later entry for the same key overwrites the earlier
one; in particular the reply with `health=-10` on two lines yields the
single entry `health = -10`, which reconciliation applies once
(`100 → 90`, not `80`). -/
theorem stat_update_collapse :
    (∀ (m : List (String × Int)) (k : String) (v w : Int),
        lookupStat (insertStat (insertStat m k v) k w) k = some w) ∧
    (parseGeminiResponse
        "[STAT_UPDATE: health=-10]\n[STAT_UPDATE: health=-10]").statUpdates =
      [("health", -10)] ∧
    (applyStats
        (parseGeminiResponse
          "[STAT_UPDATE: health=-10]\n[STAT_UPDATE: health=-10]").statUpdates
        initialWorldState).playerStats.health.current = 90 :=
  ⟨fun m k v w => lookupStat_insertStat (insertStat m k v) k w,
    by decide, by decide⟩

/-- C7: a `STAT_UPDATE` entry whose value fails integer parsing is
silently dropped while the other entries of the same directive and of
later lines still parse and apply: in
`[STAT_UPDATE: health=abc, mana=+5]` followed by
`[STAT_UPDATE: stamina=-3]`, the `health` entry is absent, `mana = +5`
and `stamina = -3` are present, and applying the batch to stats
`health (100,100), mana (40,50), stamina (80,80)` gives
`(100, 45, 77)`. -/
theorem malformed_stat_entry_dropped :
    lookupStat (parseGeminiResponse
        "[STAT_UPDATE: health=abc, mana=+5]\n[STAT_UPDATE: stamina=-3]").statUpdates
      "health" = none ∧
    lookupStat (parseGeminiResponse
        "[STAT_UPDATE: health=abc, mana=+5]\n[STAT_UPDATE: stamina=-3]").statUpdates
      "mana" = some 5 ∧
    lookupStat (parseGeminiResponse
        "[STAT_UPDATE: health=abc, mana=+5]\n[STAT_UPDATE: stamina=-3]").statUpdates
      "stamina" = some (-3) ∧
    (applyStats
        (parseGeminiResponse
          "[STAT_UPDATE: health=abc, mana=+5]\n[STAT_UPDATE: stamina=-3]").statUpdates
        { storyHistory := [], inventory := [],
          playerStats := { health := ⟨100, 100⟩, mana := ⟨40, 50⟩,
                           stamina := ⟨80, 80⟩ },
          isInCombat := false, currentEnemy := none }).playerStats =
      { health := ⟨100, 100⟩, mana := ⟨45, 50⟩, stamina := ⟨77, 80⟩ } := by
  exact ⟨by decide, by decide, by decide, by decide⟩

/-- C8: when the turn fails (the generator call throws), the caller
observes the pre-reconciliation inventory, player stats, combat flag and
enemy unchanged, with only the action segment and one system error
segment appended: no directive application is partially applied. -/
theorem error_leaves_state_unchanged (s : WorldState) (action msg : String) :
    (handlePlayerAction s action (Except.error msg)).inventory = s.inventory ∧
    (handlePlayerAction s action (Except.error msg)).playerStats = s.playerStats ∧
    (handlePlayerAction s action (Except.error msg)).isInCombat = s.isInCombat ∧
    (handlePlayerAction s action (Except.error msg)).currentEnemy = s.currentEnemy ∧
    (handlePlayerAction s action (Except.error msg)).storyHistory =
      s.storyHistory ++
        [{ id := s.storyHistory.length, type := SegmentType.action,
           text := action, imageUrl := none, isImageLoading := false },
         { id := s.storyHistory.length + 1, type := SegmentType.system,
           text := "A mysterious force prevents you from proceeding... ("
             ++ msg ++ ")", imageUrl := none, isImageLoading := false }] := by
  refine ⟨rfl, rfl, rfl, rfl, ?_⟩
  rw [show (handlePlayerAction s action (Except.error msg)).storyHistory =
    (s.storyHistory ++
      [{ id := s.storyHistory.length, type := SegmentType.action,
         text := action, imageUrl := none, isImageLoading := false }]) ++
      [{ id := s.storyHistory.length + 1, type := SegmentType.system,
         text := "A mysterious force prevents you from proceeding... ("
           ++ msg ++ ")", imageUrl := none, isImageLoading := false }] from rfl]
  rw [List.append_assoc]
  rfl

/-- C9: saving and then loading reproduces the inventory, the player
stats and both combat fields exactly, and every segment's id, kind and
text; only the image fields are dropped or reset by the round trip. -/
theorem save_load_roundtrip (s : WorldState) (chat : List String) :
    (handleLoadGame (saveGame s chat)).inventory = s.inventory ∧
    (handleLoadGame (saveGame s chat)).playerStats = s.playerStats ∧
    (handleLoadGame (saveGame s chat)).isInCombat = s.isInCombat ∧
    (handleLoadGame (saveGame s chat)).currentEnemy = s.currentEnemy ∧
    (handleLoadGame (saveGame s chat)).storyHistory.map
        (fun seg => (seg.id, seg.type, seg.text)) =
      s.storyHistory.map (fun seg => (seg.id, seg.type, seg.text)) := by
  refine ⟨rfl, rfl, rfl, rfl, ?_⟩
  rw [show (handleLoadGame (saveGame s chat)).storyHistory =
    (s.storyHistory.map stripImageFields).map
      (fun seg => { seg with isImageLoading := false }) from rfl]
  rw [List.map_map, List.map_map]
  rfl

/-- C10: in every world state reachable from the fresh start state by
start, reconciliation (with the reply arriving or the call throwing),
load-from-own-save and restart, an enemy snapshot is present if and only
if the combat flag is active. -/
theorem reachable_combat_flag_iff_enemy (s : WorldState)
    (h : Reachable s) : combatOK s := by
  induction h with
  | start opening => rfl
  | restart => rfl
  | action s a raw _ ih =>
    exact combatOK_applyDirectives (parseGeminiResponse raw) _ ih
  | actionFailed s a msg _ ih => exact ih
  | loadOwnSave s chat _ ih => exact ih

/-- Witness for C10: the restart state is reachable and satisfies the
equivalence. -/
theorem reachable_combat_flag_iff_enemy_witness :
    combatOK initialWorldState :=
  reachable_combat_flag_iff_enemy initialWorldState Reachable.restart

end Adventure
